import Mathlib

/-!
Shallow embedding of the core pipeline of `chart-finder-automation`:
the video-matching scorer of `scripts/get-youtube-links.js`
(`findBestVideo`, `searchYouTubeVideo`, `collectAllYouTubeLinks`,
`saveYouTubeData`) and the credits-task client of
`scripts/trigger-manus-agent.js` (`waitForTaskCompletion`,
`validateAndCleanCredits`, `saveCreditsData`).

JavaScript strings are modelled as Lean `String`; `s.includes(p)` is the
substring test `includes`, and `s.toLowerCase()` is `jsToLower`
(the repository only uses ASCII keywords). External effects (the YouTube
search API, the Manus task API, the filesystem) are modelled as explicit
oracles / state passed to the functions.
-/

/-- JavaScript `hay.includes(pat)` on the character lists of the strings:
true iff `pat` occurs contiguously in `hay` (the empty pattern always occurs). -/
def includesList (pat : List Char) : List Char → Bool
  | [] => pat.isEmpty
  | c :: rest => pat.isPrefixOf (c :: rest) || includesList pat rest

/-- JavaScript `s.includes(pat)` for strings. -/
def includes (s pat : String) : Bool :=
  includesList pat.toList s.toList

/-- JavaScript `s.toLowerCase()`, character by character (the repository
only compares ASCII keywords). -/
def jsToLower (s : String) : String :=
  String.mk (s.data.map Char.toLower)

/-- One raw YouTube search result (the fields of `video.snippet` plus
`video.id.videoId` that the scripts read; `thumbnails` is kept abstract
as a string). -/
structure Video where
  videoId : String
  title : String
  channelTitle : String
  publishedAt : String
  thumbnails : String
deriving DecidableEq, Repr

/-- `officialKeywords` of `findBestVideo` (get-youtube-links.js line 93):
`['vevo', 'records', 'music', 'official', artist.toLowerCase()]`. -/
def officialKeywords (artist : String) : List String :=
  ["vevo", "records", "music", "official", jsToLower artist]

/-- `excludeKeywords` of `findBestVideo` (get-youtube-links.js line 96). -/
def excludeKeywords : List String :=
  ["cover", "remix", "live", "acoustic", "karaoke", "instrumental"]

/-- The `for (keyword of ...) { if (s.includes(keyword)) { score += d; break } }`
pattern of `findBestVideo`: the first matching keyword contributes `d`, once. -/
def firstMatchScore (d : Int) : List String → String → Int
  | [], _ => 0
  | k :: ks, s => if includes s k then d else firstMatchScore d ks s

/-- The score `findBestVideo` computes for one candidate
(get-youtube-links.js lines 102-135). `isFirst` is
`videos.indexOf(video) === 0`: the API result objects are distinct
references, so this is exactly "the candidate sits at position 0". -/
def videoScore (video : Video) (artist title : String) (isFirst : Bool) : Int :=
  let channelTitle := jsToLower video.channelTitle
  let videoTitle := jsToLower video.title
  let channelScore := firstMatchScore 10 (officialKeywords artist) channelTitle
  let titleScore : Int :=
    if includes videoTitle (jsToLower artist) && includes videoTitle (jsToLower title) then 5 else 0
  let officialWordScore : Int :=
    if includes videoTitle "official" || includes videoTitle "music video" then 3 else 0
  let excludeScore := firstMatchScore (-5) excludeKeywords videoTitle
  let firstScore : Int := if isFirst then 2 else 0
  channelScore + titleScore + officialWordScore + excludeScore + firstScore

/-- The selection loop of `findBestVideo` (lines 98-141): running best
starts at `(null, 0)` and is replaced only when a candidate's score is
strictly greater than the running best score. `i` is the absolute index
of the head of the remaining list. -/
def findBestLoop (artist title : String) :
    List Video → Nat → Option Video → Int → Option Video × Int
  | [], _, bestVideo, bestScore => (bestVideo, bestScore)
  | v :: vs, i, bestVideo, bestScore =>
    let score := videoScore v artist title (i == 0)
    if bestScore < score then findBestLoop artist title vs (i + 1) (some v) score
    else findBestLoop artist title vs (i + 1) bestVideo bestScore

/-- `findBestVideo(videos, artist, title)` (get-youtube-links.js lines 91-144). -/
def findBestVideo (videos : List Video) (artist title : String) : Option Video :=
  (findBestLoop artist title videos 0 none 0).1

/-- The `youtube` record `searchYouTubeVideo` builds from the selected
video (get-youtube-links.js lines 71-78). -/
structure VideoMatch where
  videoId : String
  url : String
  title : String
  channelTitle : String
  publishedAt : String
  thumbnails : String
deriving DecidableEq, Repr

/-- `searchYouTubeVideo(artist, title)` (get-youtube-links.js lines 43-86),
with the API call abstracted as its outcome `searchResult`: an `Except`
carrying either the error message or the returned item list. An API error
is caught and `null` is returned (lines 82-85); an empty result list gives
`null` (lines 60-63); otherwise the best video, if any, is wrapped. -/
def searchYouTubeVideo (searchResult : Except String (List Video))
    (artist title : String) : Option VideoMatch :=
  match searchResult with
  | Except.error _ => none
  | Except.ok videos =>
    if videos.length == 0 then none
    else
      match findBestVideo videos artist title with
      | none => none
      | some v =>
        some { videoId := v.videoId
               url := "https://www.youtube.com/watch?v=" ++ v.videoId
               title := v.title
               channelTitle := v.channelTitle
               publishedAt := v.publishedAt
               thumbnails := v.thumbnails }

/-- One line of `item.credits`: `{role, people}`. Values of non-string
type are modelled as `none`, like absent ones (the script only keeps
lines whose two fields are present strings). -/
structure Credit where
  role : Option String
  people : Option String
deriving DecidableEq, Repr

/-- A credit entry as consumed by `collectAllYouTubeLinks`
(rank, artist, title, album, credits all present and well-typed,
since it reads the output of `validateAndCleanCredits`). -/
structure CreditItem where
  rank : Nat
  artist : String
  title : String
  album : String
  credits : List Credit
deriving DecidableEq, Repr

/-- A result entry of `collectAllYouTubeLinks`: `{...item, youtube}`
(get-youtube-links.js lines 162-165). -/
structure EnrichedItem where
  rank : Nat
  artist : String
  title : String
  album : String
  credits : List Credit
  youtube : Option VideoMatch
deriving DecidableEq, Repr

/-- The object spread `{...item, youtube: youtubeData}`: every field of
`item` is copied unchanged and `youtube` is added. -/
def enrichWith (item : CreditItem) (youtubeData : Option VideoMatch) : EnrichedItem :=
  { rank := item.rank
    artist := item.artist
    title := item.title
    album := item.album
    credits := item.credits
    youtube := youtubeData }

/-- The `for (let i = 0; ...)` loop of `collectAllYouTubeLinks`
(get-youtube-links.js lines 155-182). `api i` is the outcome of the i-th
YouTube API call. `searchYouTubeVideo` already catches API errors and
returns `null`, so the surrounding `try/catch` (which would also push
`{...item, youtube: null}`) has nothing left to catch; either way the
loop pushes one result per input item and continues. -/
def collectLoop (api : Nat → Except String (List Video)) :
    List CreditItem → Nat → List EnrichedItem
  | [], _ => []
  | item :: rest, i =>
    enrichWith item (searchYouTubeVideo (api i) item.artist item.title)
      :: collectLoop api rest (i + 1)

/-- `collectAllYouTubeLinks(creditsData)` (get-youtube-links.js lines
149-189), with the sequence of API outcomes passed as the oracle `api`. -/
def collectAllYouTubeLinks (api : Nat → Except String (List Video))
    (creditsData : List CreditItem) : List EnrichedItem :=
  collectLoop api creditsData 0

/-- The task object returned by `GET /v1/tasks/{id}`: `status` is a raw
string (the script compares it to `'completed'` and `'failed'`), `result`
the completion payload, `error` the remote error message. -/
structure TaskState (α : Type) where
  status : String
  result : α
  error : String
deriving DecidableEq, Repr

/-- Outcome of `waitForTaskCompletion`: the returned result, the thrown
`Task failed: ...` error, or the thrown timeout error (which carries no
remote error message). -/
inductive PollOutcome (α : Type) where
  | success (result : α)
  | remoteError (msg : String)
  | timeout
deriving DecidableEq, Repr

/-- The `while (attempts < maxAttempts)` loop of `waitForTaskCompletion`
(trigger-manus-agent.js lines 111-133): `attempts` is the index of the
next poll, `remaining` the attempts left. Returns the outcome together
with the number of polls performed. The poll request itself is modelled
as always answering (a network error on a poll would propagate, line
129-132; the claims concern status sequences, not transport failures). -/
def waitLoop (task : Nat → TaskState α) :
    Nat → Nat → PollOutcome α × Nat
  | _, 0 => (PollOutcome.timeout, 0)
  | attempts, r + 1 =>
    let t := task attempts
    if t.status = "completed" then (PollOutcome.success t.result, 1)
    else if t.status = "failed" then
      (PollOutcome.remoteError ("Task failed: " ++ t.error), 1)
    else
      let rest := waitLoop task (attempts + 1) r
      (rest.1, rest.2 + 1)

/-- `waitForTaskCompletion(taskId)` (trigger-manus-agent.js lines
105-136), with the remote task's poll-by-poll state passed as the oracle
`task`. The source fixes `maxAttempts = 60` (line 108); the bound is kept
as a parameter here, matching the spec's `awaitCompletion(taskId,
pollInterval, maxAttempts)` contract, and instantiated per claim. -/
def waitForTaskCompletion (task : Nat → TaskState α) (maxAttempts : Nat) :
    PollOutcome α × Nat :=
  waitLoop task 0 maxAttempts

/-- One raw item of the Manus result payload, before validation. JS
truthiness of the required fields: a missing field, `0`, or `""` are all
falsy; non-string/non-number junk is modelled as absent. -/
structure RawItem where
  rank : Option Nat
  artist : Option String
  title : Option String
  album : Option String
  credits : Option (List Credit)
deriving DecidableEq, Repr

/-- JS truthiness of an optional number field. -/
def truthyNat : Option Nat → Bool
  | none => false
  | some n => n != 0

/-- JS truthiness of an optional string field. -/
def truthyStr : Option String → Bool
  | none => false
  | some s => s != ""

/-- The required-fields check of `validateAndCleanCredits`
(trigger-manus-agent.js line 150): `item.rank && item.artist && item.title`. -/
def requiredOk (item : RawItem) : Bool :=
  truthyNat item.rank && truthyStr item.artist && truthyStr item.title

/-- The per-item body of the `map` in `validateAndCleanCredits`
(trigger-manus-agent.js lines 148-169): drop the item (return `null`) if
a required field is falsy; otherwise coerce a malformed `credits` to `[]`
and keep only the credit lines whose `role` and `people` are both
truthy strings. -/
def cleanItem (item : RawItem) : Option RawItem :=
  if !(requiredOk item) then none
  else
    let credits := (item.credits.getD []).filter
      (fun c => truthyStr c.role && truthyStr c.people)
    some { item with credits := some credits }

/-- `validateAndCleanCredits(creditsData)` (trigger-manus-agent.js lines
141-173) on an array payload: `map` then `filter(item => item !== null)`. -/
def validateAndCleanCredits (creditsData : List RawItem) : List RawItem :=
  (creditsData.map cleanItem).filterMap id

/-- The identity of a raw item: the fields `cleanItem` never alters. -/
def itemKey (item : RawItem) : Option Nat × Option String × Option String × Option String :=
  (item.rank, item.artist, item.title, item.album)

/-- The document each save function writes:
`{timestamp, source, data}` (JSON-stringified in the source). -/
structure SavedDoc (α : Type) where
  timestamp : String
  source : String
  data : α
deriving DecidableEq, Repr

/-- The data directory as a map from file name to the document stored
there (`none` = no such file). -/
def FileSys (α : Type) := String → Option (SavedDoc α)

/-- `fs.writeFile(p, doc)`: plain overwrite of one path. -/
def writeFile (fs : FileSys α) (p : String) (doc : SavedDoc α) : FileSys α :=
  fun q => if q = p then some doc else fs q

/-- `new Date().toISOString().split('T')[0]`: the calendar-date part of
the ISO timestamp, i.e. everything before the first `'T'`. -/
def dateStampOf (iso : String) : String :=
  String.mk (iso.data.takeWhile (fun c => c ≠ 'T'))

/-- `saveYouTubeData(youtubeData)` (get-youtube-links.js lines 194-219):
write `youtube-<date>.json` and then the `latest-youtube.json` alias,
both holding `{timestamp, source: 'youtube-api-v3', data}`. `iso` is the
clock reading `new Date().toISOString()`. -/
def saveYouTubeData (fs : FileSys α) (iso : String) (youtubeData : α) : FileSys α :=
  let dataToSave : SavedDoc α := ⟨iso, "youtube-api-v3", youtubeData⟩
  let fs1 := writeFile fs ("youtube-" ++ dateStampOf iso ++ ".json") dataToSave
  writeFile fs1 "latest-youtube.json" dataToSave

/-- Reading the "latest" alias of the YouTube snapshot kind, as
`loadLatestCreditsData` does for the credits kind. -/
def readLatestYouTube (fs : FileSys α) : Option (SavedDoc α) :=
  fs "latest-youtube.json"

/-- `saveCreditsData(creditsData)` (trigger-manus-agent.js lines 178-203):
write `credits-<date>.json` and then the `latest-credits.json` alias,
both holding `{timestamp, source: 'manus-agent-tidal', data}`. -/
def saveCreditsData (fs : FileSys α) (iso : String) (creditsData : α) : FileSys α :=
  let dataToSave : SavedDoc α := ⟨iso, "manus-agent-tidal", creditsData⟩
  let fs1 := writeFile fs ("credits-" ++ dateStampOf iso ++ ".json") dataToSave
  writeFile fs1 "latest-credits.json" dataToSave

/-- Reading the "latest" alias of the credits snapshot kind
(`loadLatestCreditsData`, get-youtube-links.js lines 26-38). -/
def readLatestCredits (fs : FileSys α) : Option (SavedDoc α) :=
  fs "latest-credits.json"

/-- The score of the candidate `p.2` sitting at absolute position `p.1`
of the search-result list, as `findBestVideo` computes it. -/
def scoreAt (artist title : String) (p : Nat × Video) : Int :=
  videoScore p.2 artist title (p.1 == 0)

/-- A keyword loop with `break` contributes its delta exactly when some
keyword matches. -/
theorem firstMatchScore_eq (d : Int) (ks : List String) (s : String) :
    firstMatchScore d ks s = if ks.any (fun k => includes s k) then d else 0 := by
  induction ks with
  | nil => simp [firstMatchScore]
  | cons k ks ih =>
    simp only [firstMatchScore, List.any_cons, ih]
    by_cases h : includes s k = true <;> simp [h]

/-- Decomposition of `videoScore` into its five additive components. -/
theorem videoScore_eq (v : Video) (artist title : String) (isFirst : Bool) :
    videoScore v artist title isFirst =
      (if (officialKeywords artist).any
          (fun k => includes (jsToLower v.channelTitle) k) then 10 else 0)
      + (if includes (jsToLower v.title) (jsToLower artist)
            && includes (jsToLower v.title) (jsToLower title) then 5 else 0)
      + (if includes (jsToLower v.title) "official"
            || includes (jsToLower v.title) "music video" then 3 else 0)
      + (if excludeKeywords.any
            (fun k => includes (jsToLower v.title) k) then -5 else 0)
      + (if isFirst then 2 else 0) := by
  simp only [videoScore, firstMatchScore_eq]

/-- Claim C2: every candidate's computed score is the sum of exactly these
components: +10 if the lowercased channel name contains "vevo", "records",
"music", "official" or the lowercased artist name (one bonus however many
match); +5 if the lowercased title contains both the lowercased artist and
the lowercased track title; +3 if the lowercased title contains "official"
or "music video"; -5 if the lowercased title contains one of "cover",
"remix", "live", "acoustic", "karaoke", "instrumental" (one penalty however
many match); +2 if the candidate is the first element. -/
theorem c2_score_is_component_sum (v : Video) (artist title : String) (isFirst : Bool) :
    videoScore v artist title isFirst =
      (if includes (jsToLower v.channelTitle) "vevo"
          || includes (jsToLower v.channelTitle) "records"
          || includes (jsToLower v.channelTitle) "music"
          || includes (jsToLower v.channelTitle) "official"
          || includes (jsToLower v.channelTitle) (jsToLower artist) then 10 else 0)
      + (if includes (jsToLower v.title) (jsToLower artist)
            && includes (jsToLower v.title) (jsToLower title) then 5 else 0)
      + (if includes (jsToLower v.title) "official"
            || includes (jsToLower v.title) "music video" then 3 else 0)
      + (if includes (jsToLower v.title) "cover"
            || includes (jsToLower v.title) "remix"
            || includes (jsToLower v.title) "live"
            || includes (jsToLower v.title) "acoustic"
            || includes (jsToLower v.title) "karaoke"
            || includes (jsToLower v.title) "instrumental" then -5 else 0)
      + (if isFirst then 2 else 0) := by
  rw [videoScore_eq]
  simp only [officialKeywords, excludeKeywords, List.any_cons, List.any_nil,
    Bool.or_false, Bool.or_assoc]

/-- Membership in `enumFrom` of a cons unfolds in the obvious way. -/
theorem mem_enumFrom_cons {α : Type} (p : Nat × α) (v : α) (rest : List α) (i : Nat) :
    p ∈ (v :: rest).enumFrom i ↔ p = (i, v) ∨ p ∈ rest.enumFrom (i + 1) := by
  show p ∈ (i, v) :: rest.enumFrom (i + 1) ↔ _
  exact List.mem_cons

/-- If no remaining candidate beats the running best score, the loop
returns the running best unchanged. -/
theorem findBestLoop_stable (artist title : String) (vs : List Video) :
    ∀ (i : Nat) (bv : Option Video) (bs : Int),
      (∀ p ∈ vs.enumFrom i, scoreAt artist title p ≤ bs) →
      findBestLoop artist title vs i bv bs = (bv, bs) := by
  induction vs with
  | nil => intro i bv bs _; rfl
  | cons v rest ih =>
    intro i bv bs h
    have hv : scoreAt artist title (i, v) ≤ bs :=
      h (i, v) ((mem_enumFrom_cons _ _ _ _).mpr (Or.inl rfl))
    have hv' : ¬ bs < videoScore v artist title (i == 0) := not_lt.mpr hv
    simp only [findBestLoop]
    rw [if_neg hv']
    exact ih (i + 1) bv bs
      (fun p hp => h p ((mem_enumFrom_cons _ _ _ _).mpr (Or.inr hp)))

/-- If some remaining candidate strictly beats the running best score, the
loop ends on the earliest candidate of maximal score among the remainder. -/
theorem findBestLoop_max (artist title : String) (vs : List Video) :
    ∀ (i : Nat) (bv : Option Video) (bs : Int),
      (∃ p ∈ vs.enumFrom i, bs < scoreAt artist title p) →
      ∃ p ∈ vs.enumFrom i,
        findBestLoop artist title vs i bv bs = (some p.2, scoreAt artist title p)
        ∧ (∀ q ∈ vs.enumFrom i, scoreAt artist title q ≤ scoreAt artist title p)
        ∧ (∀ q ∈ vs.enumFrom i, q.1 < p.1 →
            scoreAt artist title q < scoreAt artist title p)
        ∧ bs < scoreAt artist title p := by
  induction vs with
  | nil =>
    intro i bv bs h
    obtain ⟨p, hp, _⟩ := h
    exact absurd hp (List.not_mem_nil p)
  | cons v rest ih =>
    intro i bv bs hex
    by_cases hv : bs < scoreAt artist title (i, v)
    · by_cases hrest :
        ∃ q ∈ rest.enumFrom (i + 1), scoreAt artist title (i, v) < scoreAt artist title q
      · obtain ⟨p, hp, heq, hmax, hstrict, hlt⟩ :=
          ih (i + 1) (some v) (scoreAt artist title (i, v)) hrest
        refine ⟨p, (mem_enumFrom_cons _ _ _ _).mpr (Or.inr hp), ?_, ?_, ?_, lt_trans hv hlt⟩
        · simp only [findBestLoop]
          rw [if_pos (show bs < videoScore v artist title (i == 0) from hv)]
          exact heq
        · intro q hq
          rcases (mem_enumFrom_cons _ _ _ _).mp hq with hq | hq
          · subst hq; exact le_of_lt hlt
          · exact hmax q hq
        · intro q hq hqlt
          rcases (mem_enumFrom_cons _ _ _ _).mp hq with hq | hq
          · subst hq; exact hlt
          · exact hstrict q hq hqlt
      · push_neg at hrest
        refine ⟨(i, v), (mem_enumFrom_cons _ _ _ _).mpr (Or.inl rfl), ?_, ?_, ?_, hv⟩
        · simp only [findBestLoop]
          rw [if_pos (show bs < videoScore v artist title (i == 0) from hv)]
          exact findBestLoop_stable artist title rest (i + 1) (some v)
            (scoreAt artist title (i, v)) hrest
        · intro q hq
          rcases (mem_enumFrom_cons _ _ _ _).mp hq with hq | hq
          · subst hq; exact le_refl _
          · exact hrest q hq
        · intro q hq hqlt
          exfalso
          rcases (mem_enumFrom_cons _ _ _ _).mp hq with hq | hq
          · subst hq; exact Nat.lt_irrefl i hqlt
          · have := (List.mem_enumFrom hq).1
            omega
    · obtain ⟨p0, hp0, hlt0⟩ := hex
      have hp0r : p0 ∈ rest.enumFrom (i + 1) := by
        rcases (mem_enumFrom_cons _ _ _ _).mp hp0 with h | h
        · subst h; exact absurd hlt0 hv
        · exact h
      obtain ⟨p, hp, heq, hmax, hstrict, hlt⟩ := ih (i + 1) bv bs ⟨p0, hp0r, hlt0⟩
      have hvle : scoreAt artist title (i, v) ≤ bs := not_lt.mp hv
      refine ⟨p, (mem_enumFrom_cons _ _ _ _).mpr (Or.inr hp), ?_, ?_, ?_, hlt⟩
      · simp only [findBestLoop]
        rw [if_neg (show ¬ bs < videoScore v artist title (i == 0) from hv)]
        exact heq
      · intro q hq
        rcases (mem_enumFrom_cons _ _ _ _).mp hq with hq | hq
        · subst hq; exact le_of_lt (lt_of_le_of_lt hvle hlt)
        · exact hmax q hq
      · intro q hq hqlt
        rcases (mem_enumFrom_cons _ _ _ _).mp hq with hq | hq
        · subst hq; exact lt_of_le_of_lt hvle hlt
        · exact hstrict q hq hqlt

/-- Claim C1, counterexample: `findBestVideo` returns absent on a
NON-empty list — a single candidate whose title contains an excluded
keyword scores -5 + 2 = -3, the running best never leaves `(null, 0)`,
and `null` is returned, contradicting both "absent iff the list is empty"
and "a single-candidate list always returns its candidate". -/
theorem c1_counterexample :
    findBestVideo [⟨"a1", "cover", "c", "", ""⟩] "zz" "qq" = none
    ∧ ([⟨"a1", "cover", "c", "", ""⟩] : List Video) ≠ []
    ∧ videoScore ⟨"a1", "cover", "c", "", ""⟩ "zz" "qq" true = -3 := by
  decide

/-- Claim C1 (amended): `findBestVideo` returns absent iff every
candidate's computed score is at most zero (in particular on the empty
list); when some candidate scores strictly above zero it returns the
earliest candidate of maximal score; and a single-candidate list returns
its candidate iff that candidate's score is strictly positive. -/
theorem c1_absent_iff_no_positive_score (artist title : String) :
    (∀ vs : List Video,
      findBestVideo vs artist title = none ↔
        ∀ p ∈ vs.enum, scoreAt artist title p ≤ 0)
    ∧ (∀ vs : List Video,
        (∃ p ∈ vs.enum, 0 < scoreAt artist title p) →
        ∃ p ∈ vs.enum,
          findBestVideo vs artist title = some p.2
          ∧ (∀ q ∈ vs.enum, scoreAt artist title q ≤ scoreAt artist title p)
          ∧ (∀ q ∈ vs.enum, q.1 < p.1 →
              scoreAt artist title q < scoreAt artist title p))
    ∧ (∀ v : Video,
        findBestVideo [v] artist title =
          if 0 < videoScore v artist title true then some v else none) := by
  have henum : ∀ vs : List Video, vs.enum = vs.enumFrom 0 := fun _ => rfl
  refine ⟨?_, ?_, ?_⟩
  · intro vs
    constructor
    · intro hnone p hp
      by_contra hgt
      rw [not_le] at hgt
      obtain ⟨q, _, heq, _, _, _⟩ :=
        findBestLoop_max artist title vs 0 none 0 ⟨p, (henum vs) ▸ hp, hgt⟩
      rw [findBestVideo, heq] at hnone
      exact Option.noConfusion hnone
    · intro hall
      rw [findBestVideo,
        findBestLoop_stable artist title vs 0 none 0
          (fun p hp => hall p ((henum vs) ▸ hp))]
  · intro vs hex
    obtain ⟨p0, hp0, hlt0⟩ := hex
    obtain ⟨p, hp, heq, hmax, hstrict, _⟩ :=
      findBestLoop_max artist title vs 0 none 0 ⟨p0, (henum vs) ▸ hp0, hlt0⟩
    refine ⟨p, (henum vs) ▸ hp, ?_, ?_, ?_⟩
    · rw [findBestVideo, heq]
    · intro q hq; exact hmax q ((henum vs) ▸ hq)
    · intro q hq; exact hstrict q ((henum vs) ▸ hq)
  · intro v
    have hstep : findBestLoop artist title [v] 0 none 0
        = if (0 : Int) < videoScore v artist title ((0 : Nat) == 0) then
            (some v, videoScore v artist title ((0 : Nat) == 0))
          else (none, 0) := by
      simp only [findBestLoop]
    by_cases h : 0 < videoScore v artist title true
    · rw [if_pos h, findBestVideo, hstep,
        if_pos (show (0 : Int) < videoScore v artist title ((0 : Nat) == 0) from h)]
    · rw [if_neg h, findBestVideo, hstep,
        if_neg (show ¬ (0 : Int) < videoScore v artist title ((0 : Nat) == 0) from h)]


/-- Witness for the amended Claim C1 at a concrete positive-scoring
single-candidate list. -/
theorem c1_witness :
    ∃ p ∈ ([⟨"w1", "zz qq official", "c", "", ""⟩] : List Video).enum,
      findBestVideo [⟨"w1", "zz qq official", "c", "", ""⟩] "zz" "qq" = some p.2
      ∧ (∀ q ∈ ([⟨"w1", "zz qq official", "c", "", ""⟩] : List Video).enum,
          scoreAt "zz" "qq" q ≤ scoreAt "zz" "qq" p)
      ∧ (∀ q ∈ ([⟨"w1", "zz qq official", "c", "", ""⟩] : List Video).enum,
          q.1 < p.1 → scoreAt "zz" "qq" q < scoreAt "zz" "qq" p) :=
  (c1_absent_iff_no_positive_score "zz" "qq").2.1
    [⟨"w1", "zz qq official", "c", "", ""⟩] (by decide)

/-- Claim C5, counterexample: two candidates with identical computed
scores whose common score is 0 — the running best starts at score 0 and
is only replaced on a strict improvement, so `findBestVideo` returns
`null`, not the earlier candidate. -/
theorem c5_counterexample :
    videoScore ⟨"a1", "official cover", "c", "", ""⟩ "zz" "qq" true
      = videoScore ⟨"b1", "zz qq cover", "c", "", ""⟩ "zz" "qq" false
    ∧ findBestVideo
        [⟨"a1", "official cover", "c", "", ""⟩, ⟨"b1", "zz qq cover", "c", "", ""⟩]
        "zz" "qq"
      ≠ some ⟨"a1", "official cover", "c", "", ""⟩
    ∧ findBestVideo
        [⟨"a1", "official cover", "c", "", ""⟩, ⟨"b1", "zz qq cover", "c", "", ""⟩]
        "zz" "qq"
      = none := by
  decide

/-- Claim C5 (amended): on a two-candidate list whose two computed scores
are identical, `findBestVideo` returns the earlier candidate when the
common score is strictly positive, and absent otherwise (a later
candidate replaces the running best only by strictly exceeding it, and
the running best starts at score 0). -/
theorem c5_tie_goes_to_earlier (a b : Video) (artist title : String)
    (h : videoScore a artist title true = videoScore b artist title false) :
    findBestVideo [a, b] artist title =
      if 0 < videoScore a artist title true then some a else none := by
  have h' : videoScore b artist title ((1 : Nat) == 0)
      = videoScore a artist title ((0 : Nat) == 0) := h.symm
  rw [findBestVideo]
  simp only [findBestLoop]
  by_cases h0 : (0 : Int) < videoScore a artist title ((0 : Nat) == 0)
  · rw [if_pos h0, if_pos (show 0 < videoScore a artist title true from h0)]
    rw [if_neg (by rw [h']; exact lt_irrefl _)]
  · rw [if_neg h0, if_neg (show ¬ 0 < videoScore a artist title true from h0)]
    rw [if_neg (by rw [h']; exact h0)]

/-- Witness for the amended Claim C5: equal strictly positive scores
(5 = 3 + 2 for the first, 5 for the second), earlier candidate returned. -/
theorem c5_witness :
    findBestVideo
      [⟨"w1", "official thing", "c", "", ""⟩, ⟨"w2", "zz qq", "c", "", ""⟩]
      "zz" "qq"
      = some ⟨"w1", "official thing", "c", "", ""⟩ := by
  rw [c5_tie_goes_to_earlier ⟨"w1", "official thing", "c", "", ""⟩
    ⟨"w2", "zz qq", "c", "", ""⟩ "zz" "qq" (by decide)]
  decide

/-- Claim C6, counterexample: appending the excluded keyword "live" to
the title "officia" (which contains no excluded keyword) also creates the
substring "official", so the +3 official-phrase bonus appears together
with the -5 penalty and the score drops by 2, not by 5. -/
theorem c6_counterexample :
    ("officia" ++ "live" : String) = "officialive"
    ∧ excludeKeywords.all
        (fun k => !(includes (jsToLower "officia") k)) = true
    ∧ videoScore ⟨"a1", "officialive", "c", "", ""⟩ "zz" "qq" false
        = videoScore ⟨"a1", "officia", "c", "", ""⟩ "zz" "qq" false - 2
    ∧ videoScore ⟨"a1", "officialive", "c", "", ""⟩ "zz" "qq" false
        ≠ videoScore ⟨"a1", "officia", "c", "", ""⟩ "zz" "qq" false - 5 := by
  decide

/-- Claim C6 (amended): replacing a candidate's title by one that contains
an excluded keyword lowers the computed score by exactly 5, provided the
original title contained none and the change leaves the other two
title-dependent checks (artist-and-track containment, official-phrase
containment) unchanged. -/
theorem c6_exclude_keyword_penalty (v : Video) (t' artist title : String)
    (isFirst : Bool)
    (h1 : excludeKeywords.any (fun k => includes (jsToLower v.title) k) = false)
    (h2 : excludeKeywords.any (fun k => includes (jsToLower t') k) = true)
    (h3 : (includes (jsToLower t') (jsToLower artist)
            && includes (jsToLower t') (jsToLower title))
        = (includes (jsToLower v.title) (jsToLower artist)
            && includes (jsToLower v.title) (jsToLower title)))
    (h4 : (includes (jsToLower t') "official"
            || includes (jsToLower t') "music video")
        = (includes (jsToLower v.title) "official"
            || includes (jsToLower v.title) "music video")) :
    videoScore { v with title := t' } artist title isFirst
      = videoScore v artist title isFirst - 5 := by
  rw [videoScore_eq, videoScore_eq]
  dsimp only
  rw [h1, h2, h3, h4]
  simp only [Bool.false_eq_true, if_false, if_true]
  ring

/-- Witness for the amended Claim C6 at a concrete title. -/
theorem c6_witness :
    videoScore ⟨"w1", "hello cover", "c", "", ""⟩ "zz" "qq" false
      = videoScore ⟨"w1", "hello", "c", "", ""⟩ "zz" "qq" false - 5 :=
  c6_exclude_keyword_penalty ⟨"w1", "hello", "c", "", ""⟩ "hello cover" "zz" "qq"
    false (by decide) (by decide) (by decide) (by decide)

/-- If the first `r` remaining polls all observe a status that is neither
`completed` nor `failed`, the loop performs all `r` polls and times out. -/
theorem waitLoop_timeout {α : Type} (task : Nat → TaskState α) :
    ∀ (r a : Nat),
      (∀ j, j < r → (task (a + j)).status ≠ "completed"
        ∧ (task (a + j)).status ≠ "failed") →
      waitLoop task a r = (PollOutcome.timeout, r) := by
  intro r
  induction r with
  | zero => intro a _; rfl
  | succ r ih =>
    intro a h
    have h0 := h 0 (Nat.succ_pos r)
    rw [Nat.add_zero] at h0
    simp only [waitLoop]
    rw [if_neg h0.1, if_neg h0.2]
    rw [ih (a + 1) (fun j hj => by
      have := h (j + 1) (Nat.succ_lt_succ hj)
      rwa [show a + (j + 1) = a + 1 + j by omega] at this)]

/-- If poll `k` (0-based, `k` within the remaining budget `r`) observes
`completed` and no earlier poll observes `completed` or `failed`, the
loop returns that poll's result after exactly `k + 1` polls. -/
theorem waitLoop_success {α : Type} (task : Nat → TaskState α) :
    ∀ (r k a : Nat), k < r →
      (task (a + k)).status = "completed" →
      (∀ j, j < k → (task (a + j)).status ≠ "completed"
        ∧ (task (a + j)).status ≠ "failed") →
      waitLoop task a r = (PollOutcome.success (task (a + k)).result, k + 1) := by
  intro r
  induction r with
  | zero => intro k a hk; omega
  | succ r ih =>
    intro k a hk hc hprev
    cases k with
    | zero =>
      rw [Nat.add_zero] at hc
      simp only [waitLoop, Nat.add_zero, Nat.zero_add]
      rw [if_pos hc]
    | succ k =>
      have h0 := hprev 0 (Nat.succ_pos k)
      rw [Nat.add_zero] at h0
      simp only [waitLoop]
      rw [if_neg h0.1, if_neg h0.2]
      rw [ih k (a + 1) (Nat.lt_of_succ_lt_succ hk)
        (by rwa [show a + 1 + k = a + (k + 1) by omega])
        (fun j hj => by
          have := hprev (j + 1) (Nat.succ_lt_succ hj)
          rwa [show a + (j + 1) = a + 1 + j by omega] at this)]
      rw [show a + 1 + k = a + (k + 1) by omega]

/-- Claim C3: over the status sequence [pending, pending, completed] with
maxAttempts = 5, `waitForTaskCompletion` returns the task's result after
exactly 3 polls (so no 4th poll happens); in general, the first poll that
observes status 'completed' (all earlier ones observing neither
'completed' nor 'failed') ends the polling with the result at that poll. -/
theorem c3_returns_at_first_completed :
    (∀ result : String,
      waitForTaskCompletion
        (fun i => if i < 2 then ⟨"pending", "", ""⟩ else ⟨"completed", result, ""⟩) 5
        = (PollOutcome.success result, 3))
    ∧ (∀ (α : Type) (task : Nat → TaskState α) (k maxAttempts : Nat),
        k < maxAttempts →
        (task k).status = "completed" →
        (∀ j, j < k → (task j).status ≠ "completed"
          ∧ (task j).status ≠ "failed") →
        waitForTaskCompletion task maxAttempts
          = (PollOutcome.success (task k).result, k + 1)) := by
  constructor
  · intro result
    have h := waitLoop_success
      (fun i => if i < 2 then (⟨"pending", "", ""⟩ : TaskState String)
        else ⟨"completed", result, ""⟩) 5 2 0 (by omega) (by norm_num)
      (by intro j hj; interval_cases j <;> simp)
    rw [waitForTaskCompletion, h]
    norm_num
  · intro α task k maxAttempts hk hc hprev
    rw [waitForTaskCompletion,
      waitLoop_success task maxAttempts k 0 hk
        (by rwa [Nat.zero_add]) (fun j hj => by rw [Nat.zero_add]; exact hprev j hj)]
    rw [Nat.zero_add]

/-- Witness for Claim C3's general part: completion observed at the
second poll of a budget of 4. -/
theorem c3_witness :
    waitForTaskCompletion
      (fun i => if i == 0 then (⟨"running", "", ""⟩ : TaskState String)
        else ⟨"completed", "ok", ""⟩) 4
      = (PollOutcome.success "ok", 2) := by
  have h := c3_returns_at_first_completed.2 String
    (fun i => if i == 0 then ⟨"running", "", ""⟩ else ⟨"completed", "ok", ""⟩) 1 4
    (by omega) (by decide) (by decide)
  exact h

/-- Claim C4: over an all-'pending' status sequence with maxAttempts = 3,
`waitForTaskCompletion` performs exactly 3 polls and then fails with the
timeout outcome; in general an attempt budget exhausted on non-terminal
statuses times out after exactly maxAttempts polls, and the timeout
outcome is distinct from the 'failed'-status outcome (it carries no
remote error message). -/
theorem c4_timeout_after_budget :
    (∀ task : Nat → TaskState String,
      (∀ i, i < 3 → (task i).status = "pending") →
      waitForTaskCompletion task 3 = (PollOutcome.timeout, 3))
    ∧ (∀ (α : Type) (task : Nat → TaskState α) (maxAttempts : Nat),
        (∀ j, j < maxAttempts → (task j).status ≠ "completed"
          ∧ (task j).status ≠ "failed") →
        waitForTaskCompletion task maxAttempts = (PollOutcome.timeout, maxAttempts))
    ∧ (∀ (α : Type) (msg : String),
        (PollOutcome.timeout : PollOutcome α) ≠ PollOutcome.remoteError msg) := by
  refine ⟨?_, ?_, ?_⟩
  · intro task h
    rw [waitForTaskCompletion,
      waitLoop_timeout task 3 0 (fun j hj => by
        rw [Nat.zero_add, h j hj]
        exact ⟨by decide, by decide⟩)]
  · intro α task maxAttempts h
    rw [waitForTaskCompletion,
      waitLoop_timeout task maxAttempts 0 (fun j hj => by
        rw [Nat.zero_add]; exact h j hj)]
  · intro α msg h
    exact PollOutcome.noConfusion h

/-- Witness for Claim C4 at the all-pending oracle with budget 3. -/
theorem c4_witness :
    waitForTaskCompletion (fun _ => (⟨"pending", "", ""⟩ : TaskState String)) 3
      = (PollOutcome.timeout, 3) :=
  c4_timeout_after_budget.1 (fun _ => ⟨"pending", "", ""⟩) (fun _ _ => rfl)

/-- `map` then `filter(item => item !== null)` is `filterMap`. -/
theorem validateAndCleanCredits_eq (l : List RawItem) :
    validateAndCleanCredits l = l.filterMap cleanItem := by
  rw [validateAndCleanCredits, List.filterMap_map]
  rfl

/-- `cleanItem` keeps a surviving item's rank, artist, title and album
unchanged (it only rewrites `credits`). -/
theorem cleanItem_key (item it' : RawItem) (h : cleanItem item = some it') :
    itemKey it' = itemKey item := by
  rw [cleanItem] at h
  by_cases hr : requiredOk item
  · rw [if_neg (by simp [hr])] at h
    obtain rfl := Option.some.inj h
    rfl
  · rw [if_pos (by simp [hr])] at h
    exact Option.noConfusion h

/-- Claim C7: `validateAndCleanCredits` never reorders surviving entries
(their identities form a sublist of the input's, in input order); an
entry whose required rank/artist/title is missing (falsy) is dropped
without aborting the run, and every entry whose required fields are
present survives into the output. -/
theorem c7_validate_preserves_order (l : List RawItem) :
    ((validateAndCleanCredits l).map itemKey).Sublist (l.map itemKey)
    ∧ (∀ item : RawItem, requiredOk item = false → cleanItem item = none)
    ∧ (∀ item ∈ l, requiredOk item = true →
        itemKey item ∈ (validateAndCleanCredits l).map itemKey) := by
  refine ⟨?_, ?_, ?_⟩
  · rw [validateAndCleanCredits_eq]
    induction l with
    | nil => exact List.Sublist.refl _
    | cons x rest ih =>
      rw [List.filterMap_cons]
      cases h : cleanItem x with
      | none => exact List.Sublist.cons _ ih
      | some y =>
        simp only [List.map_cons]
        rw [cleanItem_key x y h]
        exact List.Sublist.cons₂ _ ih
  · intro item h
    rw [cleanItem, if_pos (by simp [h])]
  · intro item hmem hok
    rw [validateAndCleanCredits_eq]
    induction l with
    | nil => exact absurd hmem (List.not_mem_nil item)
    | cons x rest ih =>
      rw [List.filterMap_cons]
      rcases List.mem_cons.mp hmem with rfl | hmem'
      · rw [show cleanItem item
            = some { item with credits := some ((item.credits.getD []).filter
                (fun c => truthyStr c.role && truthyStr c.people)) } by
          rw [cleanItem, if_neg (by simp [hok])]]
        simp only [List.map_cons]
        left
      · cases h : cleanItem x with
        | none => exact ih hmem'
        | some y =>
          simp only [List.map_cons]
          exact List.mem_cons_of_mem _ (ih hmem')

/-- Witness for Claim C7: a malformed first entry is dropped, the valid
second entry survives with its identity intact. -/
theorem c7_witness :
    itemKey ⟨some 1, some "a", some "t", some "al", some []⟩
      ∈ (validateAndCleanCredits
          [⟨none, some "x", some "y", none, none⟩,
            ⟨some 1, some "a", some "t", some "al", some []⟩]).map itemKey :=
  (c7_validate_preserves_order
      [⟨none, some "x", some "y", none, none⟩,
        ⟨some 1, some "a", some "t", some "al", some []⟩]).2.2
    ⟨some 1, some "a", some "t", some "al", some []⟩ (by decide) (by decide)

/-- The collection loop yields exactly one output element per input item. -/
theorem collectLoop_length (api : Nat → Except String (List Video))
    (l : List CreditItem) :
    ∀ i : Nat, (collectLoop api l i).length = l.length := by
  induction l with
  | nil => intro i; rfl
  | cons x rest ih =>
    intro i
    simp only [collectLoop, List.length_cons, ih (i + 1)]

/-- Element `j` of the collection loop's output is the enrichment of
element `j` of the input with the outcome of API call `i + j`. -/
theorem collectLoop_getElem (api : Nat → Except String (List Video))
    (l : List CreditItem) :
    ∀ i j : Nat,
      (collectLoop api l i)[j]? =
        (l[j]?).map (fun item =>
          enrichWith item (searchYouTubeVideo (api (i + j)) item.artist item.title)) := by
  induction l with
  | nil => intro i j; simp [collectLoop]
  | cons x rest ih =>
    intro i j
    cases j with
    | zero => simp [collectLoop]
    | succ j =>
      simp only [collectLoop, List.getElem?_cons_succ, ih (i + 1) j]
      rw [show i + 1 + j = i + (j + 1) by omega]

/-- Claim C8: `collectAllYouTubeLinks` completes over the whole input list
(one output per input); an entry whose API call fails is recorded with
`youtube = null`; and every entry — in particular every entry after a
failed one — still gets processed into an output element. -/
theorem c8_per_item_failure_isolation (api : Nat → Except String (List Video))
    (l : List CreditItem) :
    (collectAllYouTubeLinks api l).length = l.length
    ∧ (∀ (i : Nat) (item : CreditItem) (e : String),
        l[i]? = some item → api i = Except.error e →
        (collectAllYouTubeLinks api l)[i]? = some (enrichWith item none))
    ∧ (∀ (j : Nat) (item : CreditItem),
        l[j]? = some item →
        ∃ y, (collectAllYouTubeLinks api l)[j]? = some (enrichWith item y)) := by
  refine ⟨collectLoop_length api l 0, ?_, ?_⟩
  · intro i item e hl hapi
    rw [collectAllYouTubeLinks, collectLoop_getElem api l 0 i, hl, Nat.zero_add, hapi]
    rfl
  · intro j item hl
    refine ⟨searchYouTubeVideo (api j) item.artist item.title, ?_⟩
    rw [collectAllYouTubeLinks, collectLoop_getElem api l 0 j, hl, Nat.zero_add]
    rfl

/-- Witness for Claim C8: a failing API call on the only entry yields the
entry recorded with no match. -/
theorem c8_witness :
    (collectAllYouTubeLinks (fun _ => Except.error "ECONNRESET")
        [⟨1, "a", "b", "al", []⟩])[0]?
      = some (enrichWith ⟨1, "a", "b", "al", []⟩ none) :=
  (c8_per_item_failure_isolation (fun _ => Except.error "ECONNRESET")
      [⟨1, "a", "b", "al", []⟩]).2.1
    0 ⟨1, "a", "b", "al", []⟩ "ECONNRESET" rfl rfl

/-- Claim C10: the output of `collectAllYouTubeLinks` has exactly the
input's length and order, and each output element carries every field of
the corresponding input entry unchanged, extended only by the `youtube`
field holding that entry's search outcome. -/
theorem c10_enrich_frame (api : Nat → Except String (List Video))
    (l : List CreditItem) :
    (collectAllYouTubeLinks api l).length = l.length
    ∧ (∀ (i : Nat) (item : CreditItem),
        l[i]? = some item →
        (collectAllYouTubeLinks api l)[i]? =
          some { rank := item.rank
                 artist := item.artist
                 title := item.title
                 album := item.album
                 credits := item.credits
                 youtube := searchYouTubeVideo (api i) item.artist item.title }) := by
  refine ⟨collectLoop_length api l 0, ?_⟩
  intro i item hl
  rw [collectAllYouTubeLinks, collectLoop_getElem api l 0 i, hl, Nat.zero_add]
  rfl

/-- Witness for Claim C10 at a concrete one-entry list with a successful
search. -/
theorem c10_witness :
    (collectAllYouTubeLinks
        (fun _ => Except.ok [⟨"v7", "a - b official", "a vevo", "2024", "th"⟩])
        [⟨1, "a", "b", "al", [⟨some "PRODUCER", some "X"⟩]⟩])[0]?
      = some { rank := 1
               artist := "a"
               title := "b"
               album := "al"
               credits := [⟨some "PRODUCER", some "X"⟩]
               youtube := searchYouTubeVideo
                 (Except.ok [⟨"v7", "a - b official", "a vevo", "2024", "th"⟩])
                 "a" "b" } :=
  (c10_enrich_frame
      (fun _ => Except.ok [⟨"v7", "a - b official", "a vevo", "2024", "th"⟩])
      [⟨1, "a", "b", "al", [⟨some "PRODUCER", some "X"⟩]⟩]).2
    0 ⟨1, "a", "b", "al", [⟨some "PRODUCER", some "X"⟩]⟩ rfl

/-- Claim C9: saving a snapshot of the same kind twice within the same
period (same calendar date in the ISO timestamps) overwrites both the
period-stamped file and the "latest" alias, for the credits kind and the
YouTube kind alike: after two saves, reading the latest alias and reading
the period file both yield only the second payload. -/
theorem c9_snapshot_overwrite {α : Type} (fs : FileSys α)
    (iso1 iso2 : String) (p1 p2 : α)
    (hperiod : dateStampOf iso1 = dateStampOf iso2) :
    (readLatestYouTube (saveYouTubeData (saveYouTubeData fs iso1 p1) iso2 p2)
        = some ⟨iso2, "youtube-api-v3", p2⟩
      ∧ (saveYouTubeData (saveYouTubeData fs iso1 p1) iso2 p2)
          ("youtube-" ++ dateStampOf iso1 ++ ".json")
        = some ⟨iso2, "youtube-api-v3", p2⟩)
    ∧ (readLatestCredits (saveCreditsData (saveCreditsData fs iso1 p1) iso2 p2)
        = some ⟨iso2, "manus-agent-tidal", p2⟩
      ∧ (saveCreditsData (saveCreditsData fs iso1 p1) iso2 p2)
          ("credits-" ++ dateStampOf iso1 ++ ".json")
        = some ⟨iso2, "manus-agent-tidal", p2⟩) := by
  have hylatest : ∀ d : String, ("youtube-" ++ d ++ ".json") ≠ "latest-youtube.json" := by
    intro d h
    have h2 : ("youtube-" ++ d ++ ".json").data = "latest-youtube.json".data := by rw [h]
    simp only [String.data_append] at h2
    exact absurd (List.head_eq_of_cons_eq h2) (by decide)
  have hclatest : ∀ d : String, ("credits-" ++ d ++ ".json") ≠ "latest-credits.json" := by
    intro d h
    have h2 : ("credits-" ++ d ++ ".json").data = "latest-credits.json".data := by rw [h]
    simp only [String.data_append] at h2
    exact absurd (List.head_eq_of_cons_eq h2) (by decide)
  refine ⟨⟨?_, ?_⟩, ?_, ?_⟩
  · rw [readLatestYouTube, saveYouTubeData, writeFile]
    rw [if_pos rfl]
  · rw [saveYouTubeData, writeFile, if_neg (hylatest (dateStampOf iso1)),
      writeFile, hperiod, if_pos rfl]
  · rw [readLatestCredits, saveCreditsData, writeFile]
    rw [if_pos rfl]
  · rw [saveCreditsData, writeFile, if_neg (hclatest (dateStampOf iso1)),
      writeFile, hperiod, if_pos rfl]

/-- Witness for Claim C9: two saves on the same date. -/
theorem c9_witness :
    readLatestYouTube
      (saveYouTubeData
        (saveYouTubeData (fun _ => none : FileSys Nat) "2025-03-03T01:00:00Z" 1)
        "2025-03-03T09:30:00Z" 2)
      = some ⟨"2025-03-03T09:30:00Z", "youtube-api-v3", 2⟩ :=
  ((c9_snapshot_overwrite (fun _ => none) "2025-03-03T01:00:00Z"
      "2025-03-03T09:30:00Z" 1 2 (by decide)).1).1
